import Mathlib

/-!
Shallow embedding of the getevo/network Go package: the ping driver and its
output parsers (`ping.go`), the dotted-field extractor, the Linux
configuration discovery and the singleton configuration cache
(`network.go`), and the DNS lookup layer (`dns.go`).

Go strings are modelled as `List Char` (the sources only ever handle ASCII
tool output, where Go's byte indexing coincides with character indexing).
External collaborators (process execution, the OS interface table, the host
resolver, `net.ParseIP`/`net.ParseMAC`) are passed in as explicit
environment values, exactly as the spec's "external interfaces" section
describes them; everything else is translated from the source.
-/

namespace NetworkGo

/-- Go strings, modelled as character lists. -/
abbrev Str := List Char

/-- Go `unicode.IsSpace` restricted to the ASCII range the sources meet. -/
def isSpace (c : Char) : Bool :=
  c = ' ' || c = '\t' || c = '\n' || c = '\r' || c = Char.ofNat 11 || c = Char.ofNat 12

/-- Go `strings.TrimSpace`: drop whitespace from both ends. -/
def goTrimSpace (s : Str) : Str :=
  ((s.dropWhile isSpace).reverse.dropWhile isSpace).reverse

/-- Go `strings.Fields`: split around runs of whitespace, keeping only
non-empty tokens. -/
def goFields (s : Str) : List Str :=
  (List.splitOnP isSpace s).filter (fun t => t ≠ [])

/-- Go `strings.Split(s, sep)` for a one-character separator. -/
def goSplitChar (sep : Char) (s : Str) : List Str :=
  List.splitOn sep s

/-- Go `strings.HasPrefix`. -/
def goHasPre (p s : Str) : Bool := p.isPrefixOf s

/-- Go `strings.HasSuffix`. -/
def goHasSuf (p s : Str) : Bool := p.isSuffixOf s

/-- Go `strings.TrimPrefix`: remove `p` from the front of `s` when present. -/
def goStripPre (p s : Str) : Str :=
  if goHasPre p s then s.drop p.length else s

/-- Go `strings.TrimSuffix`: remove `p` from the end of `s` when present. -/
def goStripSuf (p s : Str) : Str :=
  if goHasSuf p s then s.take (s.length - p.length) else s

/-- Go `strings.TrimRight(s, cutset)` for a one-character cutset. -/
def goTrimRightChar (c : Char) (s : Str) : Str :=
  (s.reverse.dropWhile (fun x => x = c)).reverse

/-- Go `strings.Trim(s, cutset)` for a one-character cutset. -/
def goTrimChar (c : Char) (s : Str) : Str :=
  ((s.dropWhile (fun x => x = c)).reverse.dropWhile (fun x => x = c)).reverse

/-- Go `strings.Contains(s, sub)`: some suffix of `s` starts with `sub`. -/
def containsSubstr (s sub : Str) : Bool :=
  (List.range (s.length + 1)).any (fun i => goHasPre sub (s.drop i))

/-- Go `strings.ContainsAny(s, chars)`. -/
def goContainsAny (s chars : Str) : Bool :=
  s.any (fun c => chars.contains c)

/-- Decimal digit test, as in the regexp class `\d`. -/
def isDigit (c : Char) : Bool := '0' ≤ c && c ≤ '9'

/-- Maximal leading digit run of a string together with the remainder. -/
def digitsRun (s : Str) : Str × Str :=
  (s.takeWhile isDigit, s.dropWhile isDigit)

/-- Numeric value of a digit string (`strconv.Atoi` on a regexp `\d+`
capture, which never fails). -/
def natOfDigits (s : Str) : Nat :=
  s.foldl (fun n c => n * 10 + (c.toNat - '0'.toNat)) 0

/-- Value of `strconv.ParseFloat` on a capture of shape `\d+` or
`\d+.\d+`, modelled exactly in `ℚ`. -/
def ratOfCapture (intPart fracPart : Str) : ℚ :=
  (natOfDigits intPart : ℚ) + (natOfDigits fracPart : ℚ) / ((10 : ℚ) ^ fracPart.length)

/-- Leftmost-match regexp search: try the matcher at every start position,
left to right, as Go's `regexp.FindStringSubmatch` does. -/
def findMatch {α : Type} (m : Str → Option α) : Str → Option α
  | [] => m []
  | s@(_ :: rest) =>
    match m s with
    | some a => some a
    | none => findMatch m rest

/-! ## Ping driver and output parsers (`ping.go`) -/

/-- Result of a ping operation (`PingResult`).  Go `int` fields are `Int`,
`time.Duration` fields are `Int` nanoseconds, `float64` is modelled
exactly as `ℚ`. -/
structure PingResult where
  host : Str
  sent : Int
  received : Int
  lost : Int
  packetLoss : ℚ
  minRTT : Int
  maxRTT : Int
  avgRTT : Int
  stdDevRTT : Int
  success : Bool
  errorMessage : Str
  deriving DecidableEq

/-- Ping configuration (`PingOptions`); `timeout` is `time.Duration`
nanoseconds. -/
structure PingOptions where
  count : Int
  timeout : Int
  size : Int
  deriving DecidableEq

/-- Default ping options (`DefaultPingOptions`): size 56, or 32 on
Windows. -/
def DefaultPingOptions (isWindows : Bool) : PingOptions :=
  { count := 4
    timeout := 4 * 1000000000
    size := if isWindows then 32 else 56 }

/-- Option validation inlined in `Ping` (ping.go lines 58 to 67): each
non-positive field is overwritten with a literal default, the size
unconditionally with 32. -/
def validatePingOptions (o : PingOptions) : PingOptions :=
  let o := if o.count ≤ 0 then { o with count := 4 } else o
  let o := if o.timeout ≤ 0 then { o with timeout := 4 * 1000000000 } else o
  if o.size ≤ 0 then { o with size := 32 } else o

/-- Matcher for the regexp `Sent = (\d+), Received = (\d+), Lost = (\d+)`
at one start position.  Each `\d+` is followed by a non-digit literal, so
the greedy maximal digit run is the only candidate. -/
def matchWinPacketsAt (s : Str) : Option (Nat × Nat × Nat) :=
  if goHasPre "Sent = ".toList s then
    let (d1, r1) := digitsRun (s.drop 7)
    if d1 ≠ [] && goHasPre ", Received = ".toList r1 then
      let (d2, r2) := digitsRun (r1.drop 13)
      if d2 ≠ [] && goHasPre ", Lost = ".toList r2 then
        let (d3, _) := digitsRun (r2.drop 9)
        if d3 ≠ [] then some (natOfDigits d1, natOfDigits d2, natOfDigits d3)
        else none
      else none
    else none
  else none

/-- Matcher for `Minimum = (\d+)ms, Maximum = (\d+)ms, Average = (\d+)ms`
at one start position. -/
def matchWinRttAt (s : Str) : Option (Nat × Nat × Nat) :=
  if goHasPre "Minimum = ".toList s then
    let (d1, r1) := digitsRun (s.drop 10)
    if d1 ≠ [] && goHasPre "ms, Maximum = ".toList r1 then
      let (d2, r2) := digitsRun (r1.drop 14)
      if d2 ≠ [] && goHasPre "ms, Average = ".toList r2 then
        let (d3, r3) := digitsRun (r2.drop 14)
        if d3 ≠ [] && goHasPre "ms".toList r3 then
          some (natOfDigits d1, natOfDigits d2, natOfDigits d3)
        else none
      else none
    else none
  else none

/-- Matcher for the number shape `\d+(?:\.\d+)?` followed by a given
literal: greedy, trying the fractional branch first as the regexp engine
does. -/
def matchNumThen (lit : Str) (s : Str) : Option (ℚ × Str) :=
  let (d1, r1) := digitsRun s
  if d1 = [] then none
  else
    match r1 with
    | '.' :: r2 =>
      let (d2, r3) := digitsRun r2
      if d2 ≠ [] && goHasPre lit r3 then some (ratOfCapture d1 d2, r3.drop lit.length)
      else if goHasPre lit r1 then some (ratOfCapture d1 [], r1.drop lit.length)
      else none
    | _ =>
      if goHasPre lit r1 then some (ratOfCapture d1 [], r1.drop lit.length)
      else none

/-- Matcher for `(\d+) packets transmitted, (\d+) received` at one start
position. -/
def matchTransmittedAt (s : Str) : Option (Nat × Nat) :=
  let (d1, r1) := digitsRun s
  if d1 ≠ [] && goHasPre " packets transmitted, ".toList r1 then
    let (d2, r2) := digitsRun (r1.drop 22)
    if d2 ≠ [] && goHasPre " received".toList r2 then
      some (natOfDigits d1, natOfDigits d2)
    else none
  else none

/-- Matcher for `(\d+(?:\.\d+)?)% packet loss` at one start position. -/
def matchLossAt (s : Str) : Option ℚ :=
  (matchNumThen "% packet loss".toList s).map Prod.fst

/-- Matcher for the four slash-separated numbers of
`rtt min/avg/max/mdev = a/b/c/d ms` at one start position. -/
def matchRtt4At (s : Str) : Option (ℚ × ℚ × ℚ × ℚ) := do
  let (a, r1) ← matchNumThen ['/'] s
  let (b, r2) ← matchNumThen ['/'] r1
  let (c, r3) ← matchNumThen ['/'] r2
  let (d, _) ← matchNumThen [] r3
  pure (a, b, c, d)

/-- Go `time.Duration(f * float64(time.Millisecond))`: a millisecond
quantity converted to truncated nanoseconds. -/
def msToDuration (q : ℚ) : Int := ⌊q * 1000000⌋

/-- One iteration of the `parseWindowsPingOutput` line loop. -/
def windowsLine (r : PingResult) (line : Str) : PingResult :=
  let line := goTrimSpace line
  let r :=
    if containsSubstr line "Packets:".toList then
      match findMatch matchWinPacketsAt line with
      | some (s, rcv, l) => { r with sent := s, received := rcv, lost := l }
      | none => r
    else r
  if containsSubstr line "Minimum".toList && containsSubstr line "Maximum".toList then
    match findMatch matchWinRttAt line with
    | some (mn, mx, av) =>
      { r with minRTT := mn * 1000000, maxRTT := mx * 1000000, avgRTT := av * 1000000 }
    | none => r
  else r

/-- `parseWindowsPingOutput`: fold the line loop over the output split on
newlines. -/
def parseWindowsPingOutput (output : Str) (r : PingResult) : PingResult :=
  (goSplitChar '\n' output).foldl windowsLine r

/-- One iteration of the `parseLinuxPingOutput` line loop. -/
def linuxLine (r : PingResult) (line : Str) : PingResult :=
  let line := goTrimSpace line
  let r :=
    if containsSubstr line "packets transmitted".toList then
      let r :=
        match findMatch matchTransmittedAt line with
        | some (s, rcv) => { r with sent := s, received := rcv }
        | none => r
      match findMatch matchLossAt line with
      | some q => { r with packetLoss := q }
      | none => r
    else r
  if containsSubstr line "rtt min/avg/max".toList then
    match findMatch matchRtt4At line with
    | some (mn, av, mx, sd) =>
      { r with minRTT := msToDuration mn, avgRTT := msToDuration av,
               maxRTT := msToDuration mx, stdDevRTT := msToDuration sd }
    | none => r
  else r

/-- Final lost-packet fallback of `parseLinuxPingOutput` (ping.go lines
237 to 239): `if result.Sent > 0 && result.Lost == 0`. -/
def lostFallback (r : PingResult) : PingResult :=
  if r.sent > 0 && r.lost = 0 then { r with lost := r.sent - r.received } else r

/-- `parseLinuxPingOutput`: the line loop, then the lost-packet
fallback. -/
def parseLinuxPingOutput (output : Str) (r : PingResult) : PingResult :=
  lostFallback ((goSplitChar '\n' output).foldl linuxLine r)

/-- Platform dispatch of the two output parsers. -/
def parsePingOutput (isWindows : Bool) (output : Str) (r : PingResult) : PingResult :=
  if isWindows then parseWindowsPingOutput output r else parseLinuxPingOutput output r

/-- Observable behaviour of the external ping process: the combined
output and the error, if any, from `cmd.CombinedOutput()`. -/
structure PingEnv where
  output : Str
  procErr : Option Str

/-- Zero value of `PingResult` with the host filled in (ping.go lines 69
to 71). -/
def initPingResult (host : Str) : PingResult :=
  { host := host, sent := 0, received := 0, lost := 0, packetLoss := 0,
    minRTT := 0, maxRTT := 0, avgRTT := 0, stdDevRTT := 0,
    success := false, errorMessage := [] }

/-- Final statistics block of `Ping` (lines 107 to 112). -/
def finalizePingResult (r : PingResult) : PingResult :=
  if r.sent > 0 then
    let lost := r.sent - r.received
    { r with lost := lost,
             packetLoss := (lost : ℚ) / (r.sent : ℚ) * 100,
             success := r.received > 0 }
  else r

/-- The partial parse attempted inside the error branch of `Ping` (lines
82 to 90): parse only when some output was captured. -/
def pingPartialParse (isWindows : Bool) (env : PingEnv) (r : PingResult) : PingResult :=
  if env.output.length > 0 then parsePingOutput isWindows env.output r else r

/-- `Ping`.  The first component is the returned `(*PingResult, error)`
pair; the second is the caller's options struct after the call (`Ping`
receives a pointer and assigns defaults through it, so for a non-nil
argument the caller observes the validated struct — unless the empty-host
guard returned first). -/
def Ping (host : Str) (optionsArg : Option PingOptions) (isWindows : Bool)
    (env : PingEnv) : Except Str PingResult × Option PingOptions :=
  if host = [] then (.error "host cannot be empty".toList, optionsArg)
  else
    let options := validatePingOptions (optionsArg.getD (DefaultPingOptions isWindows))
    let callerOptions := optionsArg.map (fun _ => options)
    let result := initPingResult host
    match env.procErr with
    | some e =>
      let r := pingPartialParse isWindows env result
      if r.sent = 0 || r.received = 0 then
        (.ok { r with success := false,
                      errorMessage :=
                        "failed to ping ".toList ++ host ++ ": ".toList ++ e },
         callerOptions)
      else
        (.ok (finalizePingResult (parsePingOutput isWindows env.output r)), callerOptions)
    | none =>
      (.ok (finalizePingResult (parsePingOutput isWindows env.output result)), callerOptions)

/-! ## Dotted-field extractor (`extractDotted`) -/

/-- A line that `extractDotted` takes as the labelled line (the
condition of network.go line 307): it begins with exactly three spaces
followed by the label, and is longer than the 39-column value offset. -/
def isLabelLine (key line : Str) : Bool :=
  goHasPre ("   ".toList ++ key) line && line.length > 39

/-- A line that `extractDotted` takes as a continuation (the condition
of network.go line 312): longer than 39 columns, the first 39 of which
are blank. -/
def isContinuationLine (line : Str) : Bool :=
  line.length > 39 && goTrimSpace (line.take 39) = []

/-- The loop of `extractDotted`, with the accumulated string and the
`found` flag as explicit state; the `break` is the early return in the
continuation branch. -/
def extractLoop (key : Str) : List Str → Str → Bool → Str
  | [], result, _ => result
  | line :: rest, result, found =>
    if !found then
      if isLabelLine key line then
        extractLoop key rest (line.drop 39) true
      else
        extractLoop key rest result false
    else
      if isContinuationLine line then
        extractLoop key rest (result ++ [','] ++ goTrimSpace (line.drop 39)) true
      else result

/-- `extractDotted`: run the loop, then
`strings.Split(strings.Trim(result, ","), ",")`. -/
def extractDotted (lines : List Str) (key : Str) : List Str :=
  goSplitChar ',' (goTrimChar ',' (extractLoop key lines [] false))

/-- The comma-prefixed trimmed tails of the leading continuation lines:
what the loop appends after the labelled line before it breaks. -/
def contTail (ls : List Str) : Str :=
  ((ls.takeWhile isContinuationLine).map (fun c => [','] ++ goTrimSpace (c.drop 39))).flatten

/-- Specification form of the extractor: find the first labelled line,
take its raw tail from column 39, append the trimmed tails of the
immediately following continuation lines, and stop at the first other
line; when no line is labelled the accumulated string stays empty, so the
comma split yields the single-element sentinel. -/
def extractSpec (lines : List Str) (key : Str) : List Str :=
  match lines.dropWhile (fun l => !isLabelLine key l) with
  | [] => [[]]
  | line :: rest => goSplitChar ',' (goTrimChar ',' (line.drop 39 ++ contTail rest))

/-! ## Network snapshot, Linux discovery and the configuration cache -/

/-- The OS interface descriptor returned by `net.InterfaceByName`
(only the fields the package reads). -/
structure Iface where
  name : Str
  hardwareAddr : Str
  deriving DecidableEq

/-- The `Network` configuration snapshot.  Nil-able `net.IP` and
`net.HardwareAddr` values are `Option`s holding their canonical string
form; `DNS` is the slice of server strings. -/
structure Network where
  localIP : Option Str
  dns : List Str
  subnetMask : Option Str
  defaultGateway : Option Str
  defaultGatewayHardwareAddress : Option Str
  interfaceName : Str
  hardwareAddress : Str
  suffix : Str
  interfaceHandle : Option Iface
  deriving DecidableEq

/-- Zero value of `Network` (the `network := Network{}` literal). -/
def Network.empty : Network :=
  { localIP := none, dns := [], subnetMask := none, defaultGateway := none,
    defaultGatewayHardwareAddress := none, interfaceName := [],
    hardwareAddress := [], suffix := [], interfaceHandle := none }

/-- External commands `getLinux` can shell out to, recorded in order of
invocation. -/
inductive LinuxCmd where
  | route
  | ifconfig
  | grepLeases
  | arp
  deriving DecidableEq

/-- Environment of the Linux discovery path: results of the command-path
lookups, of each external process, of the OS interface table, and the
behaviour of the pure stdlib IP/MAC parsers, all supplied from outside. -/
structure LinuxEnv where
  ipCmd : Str
  route : Except Str Str
  ifaceByName : Str → Except Str Iface
  ifconfigCmd : Str
  ifconfig : Except Str Str
  grepLeases : Except Str Str
  arp : Except Str Str
  parseIP : Str → Option Str
  parseMAC : Str → Option Str

/-- Shell metacharacters rejected by the interface-name sanitization
(the set `;&|`, backtick, `$()` and newline of network.go line 147). -/
def shellMetaChars : Str :=
  [';', '&', '|', Char.ofNat 96, '$', '(', ')', Char.ofNat 10]

/-- Subnet-mask extraction from the `ifconfig` output (network.go lines
133 to 141): the fifth whitespace field of the second line. -/
def subnetFromIfconfig (env : LinuxEnv) (out : Str) : Option Str :=
  let lines := goSplitChar '\n' out
  if h : lines.length > 1 then
    let fields := goFields (goTrimSpace (lines.get ⟨1, h⟩))
    if hf : fields.length > 4 then env.parseIP (fields.get ⟨4, hf⟩) else none
  else none

/-- One line of the DHCP-lease parse (network.go lines 156 to 176),
threading the accumulated comma-joined server list and the suffix; note
the substring-containment duplicate check and the trailing-comma trim
performed after every line. -/
def leaseLine (acc : Str × Str) (line : Str) : Str × Str :=
  let (dnslist, suffix) := acc
  let (dnslist, suffix) :=
    if containsSubstr line "domain-name-servers".toList then
      let trimmedLine := goTrimSpace line
      if trimmedLine.length > 26 then
        let l := goTrimRightChar ';' (trimmedLine.drop 26)
        let items := goSplitChar ',' l
        (items.foldl
          (fun d item => if !containsSubstr d item then d ++ item ++ [','] else d)
          dnslist, suffix)
      else (dnslist, suffix)
    else
      let trimmedLine := goTrimSpace line
      if trimmedLine.length > 18 then
        (dnslist, goTrimRightChar ';' (trimmedLine.drop 18))
      else (dnslist, suffix)
  (goTrimRightChar ',' dnslist, suffix)

/-- Full DHCP-lease parse: fold over the trimmed grep output's lines and
split the accumulated server list on commas. -/
def parseLeases (out : Str) : List Str × Str :=
  let (dnslist, suffix) :=
    (goSplitChar '\n' (goTrimSpace out)).foldl leaseLine ([], [])
  (goSplitChar ',' dnslist, suffix)

/-- Gateway MAC from the `arp -e` output (network.go lines 188 to 196):
the third whitespace field of the second line, through `net.ParseMAC`
with the error discarded. -/
def macFromArp (env : LinuxEnv) (out : Str) : Option Str :=
  let lines := goSplitChar '\n' out
  if h : lines.length ≥ 2 then
    let fields := goFields (lines.get ⟨1, by omega⟩)
    if hf : fields.length > 2 then env.parseMAC (fields.get ⟨2, hf⟩) else none
  else none

/-- The Linux discovery path `getLinux`, returning the
`(*Network, error)` outcome together with the trace of external commands
it issued. -/
def getLinux (env : LinuxEnv) : Except Str Network × List LinuxCmd :=
  if env.ipCmd = [] then (.error "ip command not found".toList, [])
  else
    match env.route with
    | .error e => (.error e, [.route])
    | .ok out =>
      let parts := goFields out
      if parts.length < 7 then
        (.error "unexpected ip route output format".toList, [.route])
      else
        let gateway := env.parseIP (parts.getD 2 [])
        let name := parts.getD 4 []
        let localIP := env.parseIP (parts.getD 6 [])
        match env.ifaceByName name with
        | .error e => (.error e, [.route])
        | .ok interf =>
          match env.ifconfig with
          | .error e => (.error e, [.route, .ifconfig])
          | .ok ifout =>
            let mask := subnetFromIfconfig env ifout
            if goContainsAny name shellMetaChars then
              (.error "invalid interface name".toList, [.route, .ifconfig])
            else
              match env.grepLeases with
              | .error e => (.error e, [.route, .ifconfig, .grepLeases])
              | .ok gout =>
                let (dns, suffix) := parseLeases gout
                let base : Network :=
                  { localIP := localIP, dns := dns, subnetMask := mask,
                    defaultGateway := gateway,
                    defaultGatewayHardwareAddress := none,
                    interfaceName := name,
                    hardwareAddress := interf.hardwareAddr,
                    suffix := suffix, interfaceHandle := some interf }
                match gateway with
                | none => (.ok base, [.route, .ifconfig, .grepLeases])
                | some _ =>
                  match env.arp with
                  | .error e => (.error e, [.route, .ifconfig, .grepLeases, .arp])
                  | .ok aout =>
                    (.ok { base with defaultGatewayHardwareAddress := macFromArp env aout },
                     [.route, .ifconfig, .grepLeases, .arp])

/-- State of the process-wide singleton: the cached snapshot tagged with
an allocation identity (distinct Go allocations of `&network` get
distinct tags), and the next fresh tag. -/
structure CacheState where
  inst : Option (Nat × Network)
  nextRef : Nat
  deriving DecidableEq

/-- A cache state is well formed when its cached tag, if any, was
allocated in the past. -/
def CacheState.wf (s : CacheState) : Prop :=
  ∀ p ∈ s.inst, p.1 < s.nextRef

/-- `GetConfig` under the lock, parametrised by the outcome `build` of
the platform discovery: return the cached snapshot if present, otherwise
run discovery, caching a freshly allocated snapshot on success and
leaving the state untouched on failure. -/
def GetConfig (build : Except Str Network) (s : CacheState) :
    Except Str (Nat × Network) × CacheState :=
  match s.inst with
  | some p => (.ok p, s)
  | none =>
    match build with
    | .error e => (.error e, s)
    | .ok n =>
      (.ok (s.nextRef, n), { inst := some (s.nextRef, n), nextRef := s.nextRef + 1 })

/-- `RefreshConfig`: set `instance = nil` under the lock, then call
`GetConfig`. -/
def RefreshConfig (build : Except Str Network) (s : CacheState) :
    Except Str (Nat × Network) × CacheState :=
  GetConfig build { s with inst := none }

/-! ## DNS resolution layer (`dns.go`) -/

/-- A mail-exchange record. -/
structure MXRecord where
  host : Str
  priority : Nat
  deriving DecidableEq

/-- A start-of-authority record. -/
structure SOARecord where
  ns : Str
  mbox : Str
  serial : Nat
  refresh : Nat
  retry : Nat
  expire : Nat
  minTTL : Nat
  deriving DecidableEq

/-- The aggregated record set returned by `Resolve`. -/
structure DNSRecords where
  domain : Str
  a : List Str
  aaaa : List Str
  cname : List Str
  mx : List MXRecord
  ns : List Str
  txt : List Str
  soa : Option SOARecord
  ptr : List Str
  deriving DecidableEq

/-- Host resolver environment: one answer function per record category,
plus the pure `net.ParseIP` classifier (`some true` for an address with a
4-byte form, `some false` for other IPs, `none` when the argument is not
an IP literal). -/
structure ResolverEnv where
  lookupHost : Str → Except Str (List Str)
  lookupCNAME : Str → Except Str Str
  lookupMX : Str → Except Str (List (Str × Nat))
  lookupNS : Str → Except Str (List Str)
  lookupTXT : Str → Except Str (List Str)
  lookupAddr : Str → Except Str (List Str)
  parseIP : Str → Option Bool

/-- Scheme and trailing-slash normalization shared by `NSLookup` and
`Resolve` (dns.go lines 48 to 50 and 84 to 86). -/
def normalizeDomain (d : Str) : Str :=
  goStripSuf ['/'] (goStripPre "https://".toList (goStripPre "http://".toList d))

/-- The duplicate-removal loop of `NSLookup` (dns.go lines 65 to 72):
a seen-set and an append-only result slice. -/
def dedupLoop : List Str → List Str → List Str → List Str
  | [], _, result => result
  | ip :: rest, seen, result =>
    if seen.contains ip then dedupLoop rest seen result
    else dedupLoop rest (ip :: seen) (result ++ [ip])

/-- Canonical first-occurrence duplicate removal, used as the
specification the loop is proved against. -/
def dedupFirst : List Str → List Str
  | [] => []
  | x :: xs =>
    x :: dedupFirst (xs.filter (fun y => y ≠ x))
termination_by l => l.length
decreasing_by
  simp only [List.length_cons]
  exact Nat.lt_succ_of_le (List.length_filter_le _ _)

/-- `NSLookup`: reject the empty domain, normalize, resolve, and remove
duplicate answers. -/
def NSLookup (env : ResolverEnv) (domain : Str) : Except Str (List Str) :=
  if domain = [] then .error "domain cannot be empty".toList
  else
    let d := normalizeDomain domain
    match env.lookupHost d with
    | .error e => .error ("failed to lookup ".toList ++ d ++ ": ".toList ++ e)
    | .ok ips => .ok (dedupLoop ips [] [])

/-- Best-effort SOA approximation `lookupSOA`: the first NS host with the
trailing dot removed, or nothing. -/
def lookupSOA (env : ResolverEnv) (domain : Str) : Option SOARecord :=
  match env.lookupNS domain with
  | .ok (h :: _) =>
    some { ns := goStripSuf ['.'] h, mbox := [], serial := 0, refresh := 0,
           retry := 0, expire := 0, minTTL := 0 }
  | _ => none

/-- `Resolve`: reject the empty domain, normalize, then attempt each
record category independently, swallowing per-category failures. -/
def Resolve (env : ResolverEnv) (domain : Str) : Except Str DNSRecords :=
  if domain = [] then .error "domain cannot be empty".toList
  else
    let d := normalizeDomain domain
    let records : DNSRecords :=
      { domain := d, a := [], aaaa := [], cname := [], mx := [], ns := [],
        txt := [], soa := none, ptr := [] }
    let records :=
      match env.lookupHost d with
      | .ok addrs =>
        addrs.foldl
          (fun (r : DNSRecords) addr =>
            match env.parseIP addr with
            | some true => { r with a := r.a ++ [addr] }
            | some false => { r with aaaa := r.aaaa ++ [addr] }
            | none => r)
          records
      | .error _ => records
    let records :=
      match env.lookupCNAME d with
      | .ok cname =>
        if cname ≠ d ++ ['.'] then
          { records with cname := records.cname ++ [goStripSuf ['.'] cname] }
        else records
      | .error _ => records
    let records :=
      match env.lookupMX d with
      | .ok mxs =>
        { records with
            mx := mxs.map (fun (p : Str × Nat) =>
              { host := goStripSuf ['.'] p.1, priority := p.2 }) }
      | .error _ => records
    let records :=
      match env.lookupNS d with
      | .ok nss => { records with ns := nss.map (goStripSuf ['.']) }
      | .error _ => records
    let records :=
      match env.lookupTXT d with
      | .ok txts => { records with txt := txts }
      | .error _ => records
    let records := { records with soa := lookupSOA env d }
    let records :=
      if (env.parseIP d).isSome then
        match env.lookupAddr d with
        | .ok names => { records with ptr := names }
        | .error _ => records
      else records
    .ok records

/-! ## Cache lemmas and the claims C2, C3 -/

theorem GetConfig_ok_inst {b : Except Str Network} {s : CacheState}
    {p : Nat × Network} {s' : CacheState}
    (h : GetConfig b s = (.ok p, s')) : s'.inst = some p := by
  unfold GetConfig at h
  cases hs : s.inst with
  | some q => rw [hs] at h; cases h; simpa using hs
  | none =>
    rw [hs] at h
    cases b with
    | error e => simp at h
    | ok n => cases h; rfl

theorem GetConfig_ok_lt {b : Except Str Network} {s : CacheState}
    {p : Nat × Network} {s' : CacheState}
    (hwf : s.wf) (h : GetConfig b s = (.ok p, s')) : p.1 < s'.nextRef := by
  unfold GetConfig at h
  cases hs : s.inst with
  | some q =>
    rw [hs] at h; cases h
    exact hwf _ (by simp [hs])
  | none =>
    rw [hs] at h
    cases b with
    | error e => simp at h
    | ok n => cases h; simp

theorem GetConfig_cached {b : Except Str Network} {s : CacheState}
    {p : Nat × Network} (h : s.inst = some p) : GetConfig b s = (.ok p, s) := by
  unfold GetConfig; rw [h]

/-- C2: once `GetConfig` has returned a snapshot, every later `GetConfig`
with no intervening refresh returns the identical reference with the
state untouched and the discovery outcome never consulted; a successful
`RefreshConfig` then hands out a reference different from the pre-refresh
one, and the `GetConfig` following it returns that new reference. -/
theorem getConfig_cache_discipline
    (b : Except Str Network) (s : CacheState) (p : Nat × Network) (s' : CacheState)
    (hwf : s.wf) (h : GetConfig b s = (.ok p, s')) :
    (∀ b', GetConfig b' s' = (.ok p, s')) ∧
    (∀ b'' q s'', RefreshConfig b'' s' = (.ok q, s'') →
      q.1 ≠ p.1 ∧ ∀ b''', GetConfig b''' s'' = (.ok q, s'')) := by
  have hinst := GetConfig_ok_inst h
  have hlt := GetConfig_ok_lt hwf h
  refine ⟨fun b' => GetConfig_cached hinst, fun b'' q s'' hr => ?_⟩
  unfold RefreshConfig GetConfig at hr
  simp only at hr
  cases b'' with
  | error e => simp at hr
  | ok n =>
    cases hr
    exact ⟨by simpa using Nat.ne_of_gt hlt, fun b''' => GetConfig_cached rfl⟩

/-- C2 witness: a cold cache filled by one successful discovery exhibits
the discipline at reference 0 and refresh reference 1. -/
theorem getConfig_cache_discipline_witness :
    GetConfig (.error "e".toList) ⟨some (0, Network.empty), 1⟩ =
      (.ok (0, Network.empty), ⟨some (0, Network.empty), 1⟩) ∧
    (1 : Nat) ≠ 0 ∧
    GetConfig (.error "e".toList) ⟨some (1, Network.empty), 2⟩ =
      (.ok (1, Network.empty), ⟨some (1, Network.empty), 2⟩) := by
  have h := getConfig_cache_discipline (.ok Network.empty) ⟨none, 0⟩
    (0, Network.empty) ⟨some (0, Network.empty), 1⟩
    (by intro p hp; simp at hp) rfl
  refine ⟨h.1 (.error "e".toList), ?_⟩
  have h2 := h.2 (.ok Network.empty) (1, Network.empty)
    ⟨some (1, Network.empty), 2⟩ rfl
  exact ⟨h2.1, h2.2 (.error "e".toList)⟩

/-- C3 counterexample: with snapshot reference 0 cached, a
`RefreshConfig` whose rebuild fails leaves the cache empty, and no later
`GetConfig` returns the prior snapshot — a failing rebuild yields the
error again, and a succeeding one yields the fresh reference 1. -/
theorem refresh_failure_loses_snapshot :
    RefreshConfig (.error "discovery failed".toList)
        ⟨some (0, Network.empty), 1⟩ =
      (.error "discovery failed".toList, ⟨none, 1⟩) ∧
    GetConfig (.error "discovery failed".toList) ⟨none, 1⟩ =
      (.error "discovery failed".toList, ⟨none, 1⟩) ∧
    GetConfig (.ok Network.empty) ⟨none, 1⟩ =
      (.ok (1, Network.empty), ⟨some (1, Network.empty), 2⟩) ∧
    (1 : Nat) ≠ 0 := by
  refine ⟨rfl, rfl, rfl, by decide⟩

/-- C3 amended: a `GetConfig` whose discovery fails leaves the cache
state untouched and returns the error (and in that situation nothing was
cached, since discovery only runs on an empty cache); `RefreshConfig`,
however, clears the cached snapshot before rebuilding, so when its
rebuild fails the prior snapshot is discarded rather than retained. -/
theorem discovery_failure_atomicity
    (e : Str) (s : CacheState) (hnone : s.inst = none) :
    GetConfig (.error e) s = (.error e, s) ∧
    RefreshConfig (.error e) s = (.error e, { s with inst := none }) := by
  constructor
  · unfold GetConfig; rw [hnone]
  · unfold RefreshConfig GetConfig; simp

/-- C3 amended witness at the empty cache with a concrete error. -/
theorem discovery_failure_atomicity_witness :
    GetConfig (.error "e".toList) ⟨none, 5⟩ = (.error "e".toList, ⟨none, 5⟩) ∧
    RefreshConfig (.error "e".toList) ⟨none, 5⟩ = (.error "e".toList, ⟨none, 5⟩) :=
  discovery_failure_atomicity "e".toList ⟨none, 5⟩ rfl

/-! ## Ping lemmas and claim C1 -/

theorem windowsLine_host (r : PingResult) (l : Str) :
    (windowsLine r l).host = r.host := by
  simp only [windowsLine]
  rcases findMatch matchWinPacketsAt (goTrimSpace l) with _ | ⟨a, b, c⟩ <;>
    rcases findMatch matchWinRttAt (goTrimSpace l) with _ | ⟨d, e, f⟩ <;>
      (repeat' split) <;> rfl

theorem linuxLine_host (r : PingResult) (l : Str) :
    (linuxLine r l).host = r.host := by
  simp only [linuxLine]
  rcases findMatch matchTransmittedAt (goTrimSpace l) with _ | ⟨a, b⟩ <;>
    rcases findMatch matchLossAt (goTrimSpace l) with _ | q <;>
      rcases findMatch matchRtt4At (goTrimSpace l) with _ | ⟨m1, m2, m3, m4⟩ <;>
        (repeat' split) <;> rfl

theorem foldl_windowsLine_host (ls : List Str) (r : PingResult) :
    (ls.foldl windowsLine r).host = r.host := by
  induction ls generalizing r with
  | nil => rfl
  | cons l ls ih => rw [List.foldl_cons, ih, windowsLine_host]

theorem foldl_linuxLine_host (ls : List Str) (r : PingResult) :
    (ls.foldl linuxLine r).host = r.host := by
  induction ls generalizing r with
  | nil => rfl
  | cons l ls ih => rw [List.foldl_cons, ih, linuxLine_host]

theorem lostFallback_host (r : PingResult) : (lostFallback r).host = r.host := by
  unfold lostFallback; split <;> rfl

theorem parsePingOutput_host (w : Bool) (out : Str) (r : PingResult) :
    (parsePingOutput w out r).host = r.host := by
  unfold parsePingOutput parseWindowsPingOutput parseLinuxPingOutput
  split
  · exact foldl_windowsLine_host _ _
  · rw [lostFallback_host]; exact foldl_linuxLine_host _ _

theorem pingPartialParse_host (w : Bool) (env : PingEnv) (r : PingResult) :
    (pingPartialParse w env r).host = r.host := by
  unfold pingPartialParse
  split
  · exact parsePingOutput_host _ _ _
  · rfl

theorem finalizePingResult_host (r : PingResult) :
    (finalizePingResult r).host = r.host := by
  unfold finalizePingResult
  split <;> rfl

theorem Ping_ok_of_ne (host : Str) (o : Option PingOptions) (w : Bool)
    (env : PingEnv) (hh : host ≠ []) :
    ∃ r, (Ping host o w env).1 = .ok r ∧ r.host = host ∧
      (env.procErr.isSome →
        ((pingPartialParse w env (initPingResult host)).sent = 0 ∨
         (pingPartialParse w env (initPingResult host)).received = 0) →
        r.success = false ∧ r.errorMessage ≠ []) := by
  unfold Ping
  rw [if_neg hh]
  cases henv : env.procErr with
  | none =>
    dsimp only
    refine ⟨_, rfl, ?_, ?_⟩
    · rw [finalizePingResult_host, parsePingOutput_host]; rfl
    · intro h; simp at h
  | some e =>
    dsimp only
    by_cases hc : (pingPartialParse w env (initPingResult host)).sent = 0 ∨
        (pingPartialParse w env (initPingResult host)).received = 0
    · have hb : (decide ((pingPartialParse w env (initPingResult host)).sent = 0) ||
          decide ((pingPartialParse w env (initPingResult host)).received = 0)) = true := by
        simpa [Bool.or_eq_true, decide_eq_true_eq] using hc
      rw [if_pos hb]
      dsimp only
      refine ⟨_, rfl, ?_, fun _ _ => ⟨rfl, ?_⟩⟩
      · show (pingPartialParse w env (initPingResult host)).host = host
        rw [pingPartialParse_host]; rfl
      · intro hcontra
        have := congrArg List.length hcontra
        simp [List.length_append] at this
    · have hb : (decide ((pingPartialParse w env (initPingResult host)).sent = 0) ||
          decide ((pingPartialParse w env (initPingResult host)).received = 0)) = false := by
        push_neg at hc
        simp [hc.1, hc.2]
      rw [if_neg (by simp [hb])]
      dsimp only
      refine ⟨_, rfl, ?_, ?_⟩
      · rw [finalizePingResult_host, parsePingOutput_host, pingPartialParse_host]; rfl
      · intro _ hor; exact absurd hor hc


/-! ## Claims C5 and its statistics lemmas -/

/-- C1: `Ping` returns a non-nil error exactly when the host is empty;
for every non-empty host it returns a result whose `Host` equals the
given host with a nil error, and when the external process reported an
error with no packets recorded the result carries `success = false` and
a non-empty error message. -/
theorem Ping_error_contract (host : Str) (o : Option PingOptions) (w : Bool)
    (env : PingEnv) :
    ((∃ e, (Ping host o w env).1 = .error e) ↔ host = []) ∧
    (host ≠ [] →
      ∃ r, (Ping host o w env).1 = .ok r ∧ r.host = host ∧
        (env.procErr.isSome →
          ((pingPartialParse w env (initPingResult host)).sent = 0 ∨
           (pingPartialParse w env (initPingResult host)).received = 0) →
          r.success = false ∧ r.errorMessage ≠ [])) := by
  by_cases hh : host = []
  · subst hh
    exact ⟨⟨fun _ => rfl, fun _ => ⟨"host cannot be empty".toList, rfl⟩⟩,
      fun h => absurd rfl h⟩
  · obtain ⟨r, hok, hhost, hrest⟩ := Ping_ok_of_ne host o w env hh
    refine ⟨⟨fun ⟨e, he⟩ => ?_, fun h => absurd h hh⟩, fun _ => ⟨r, hok, hhost, hrest⟩⟩
    rw [hok] at he
    exact Except.noConfusion he

/-- C1 witness: pinging `example.com` when the external tool cannot even
start (no output, a process error) yields a nil error, the host copied
into the result, no success, and a populated error message. -/
theorem Ping_error_contract_witness :
    ∃ r, (Ping "example.com".toList none false
        ⟨[], some "exec: ping: not found".toList⟩).1 = .ok r ∧
      r.host = "example.com".toList ∧ r.success = false ∧ r.errorMessage ≠ [] := by
  obtain ⟨-, hok⟩ := Ping_error_contract "example.com".toList none false
    ⟨[], some "exec: ping: not found".toList⟩
  obtain ⟨r, h1, h2, h3⟩ := hok (by decide)
  obtain ⟨hs, hm⟩ := h3 (by decide) (Or.inl (by decide))
  exact ⟨r, h1, h2, hs, hm⟩

theorem finalize_identities (q : PingResult)
    (h : (finalizePingResult q).sent > 0) :
    (finalizePingResult q).lost =
      (finalizePingResult q).sent - (finalizePingResult q).received ∧
    (finalizePingResult q).packetLoss =
      ((finalizePingResult q).lost : ℚ) / ((finalizePingResult q).sent : ℚ) * 100 ∧
    ((finalizePingResult q).success = true ↔ (finalizePingResult q).received > 0) := by
  unfold finalizePingResult at h ⊢
  by_cases hq : q.sent > 0
  · rw [if_pos hq] at h ⊢
    refine ⟨rfl, rfl, ?_⟩
    simp
  · rw [if_neg hq] at h
    exact absurd h hq

/-- C5 amended: whenever `Ping` completes through the final statistics
block — the process reported no error, or it did but both packet
counters were recorded — a result with `sent > 0` satisfies
`lost = sent − received`, `packetLoss = lost/sent × 100` and
`success ↔ received > 0`; on the early process-error return path the
parsed textual values are passed through unchanged, so neither identity
is enforced there, and a result with `sent = 0` keeps whatever loss
percentage the output text reported. -/
theorem Ping_statistics_identities (host : Str) (o : Option PingOptions)
    (w : Bool) (env : PingEnv) (hh : host ≠ [])
    (hpath : env.procErr = none ∨
      ¬((pingPartialParse w env (initPingResult host)).sent = 0 ∨
        (pingPartialParse w env (initPingResult host)).received = 0)) :
    ∃ r, (Ping host o w env).1 = .ok r ∧
      (r.sent > 0 →
        r.lost = r.sent - r.received ∧
        r.packetLoss = (r.lost : ℚ) / (r.sent : ℚ) * 100 ∧
        (r.success = true ↔ r.received > 0)) := by
  unfold Ping
  rw [if_neg hh]
  cases henv : env.procErr with
  | none =>
    dsimp only
    exact ⟨_, rfl, fun hs => finalize_identities _ hs⟩
  | some e =>
    dsimp only
    rcases hpath with hnone | hcond
    · rw [henv] at hnone; exact Option.noConfusion hnone
    · have hb : (decide ((pingPartialParse w env (initPingResult host)).sent = 0) ||
          decide ((pingPartialParse w env (initPingResult host)).received = 0)) = false := by
        push_neg at hcond
        simp [hcond.1, hcond.2]
      rw [if_neg (by simp [hb])]
      dsimp only
      exact ⟨_, rfl, fun hs => finalize_identities _ hs⟩

/-- C5 amended witness: a clean four-sent one-received run has
`lost = 3`, `packetLoss = 75` and success. -/
theorem Ping_statistics_identities_witness :
    ∃ r, (Ping "h".toList none false
        ⟨"4 packets transmitted, 1 received, 75% packet loss".toList, none⟩).1 = .ok r ∧
      (r.sent > 0 →
        r.lost = r.sent - r.received ∧
        r.packetLoss = (r.lost : ℚ) / (r.sent : ℚ) * 100 ∧
        (r.success = true ↔ r.received > 0)) :=
  Ping_statistics_identities "h".toList none false
    ⟨"4 packets transmitted, 1 received, 75% packet loss".toList, none⟩
    (by decide) (Or.inl rfl)

/-- C5 counterexample: two returned results violating the claim's
identities.  A clean run whose output reports `0 packets transmitted`
with a `99%` loss line returns `sent = 0` with `packetLoss = 99`, not 0;
a failed run whose partial output reports four packets sent, none
received and an inconsistent `37%` loss line returns on the early error
path with `packetLoss = 37` even though `lost/sent × 100 = 100`. -/
theorem Ping_statistics_counterexample :
    (∃ r, (Ping "h".toList none false
        ⟨"0 packets transmitted, 0 received, 99% packet loss".toList, none⟩).1 = .ok r ∧
      r.sent = 0 ∧ r.packetLoss = 99) ∧
    (∃ r, (Ping "h".toList none false
        ⟨"4 packets transmitted, 0 received, 37% packet loss".toList,
         some "exit status 1".toList⟩).1 = .ok r ∧
      r.sent = 4 ∧ r.received = 0 ∧ r.lost = 4 ∧ r.packetLoss = 37 ∧
      r.packetLoss ≠ (r.lost : ℚ) / (r.sent : ℚ) * 100) := by
  constructor
  · refine ⟨_, rfl, by decide, ?_⟩
    show ratOfCapture ['9','9'] [] = (99 : ℚ)
    norm_num [ratOfCapture, show natOfDigits ['9','9'] = 99 from by decide,
      show natOfDigits [] = 0 from by decide]
  · refine ⟨_, rfl, by decide, by decide, by decide, ?_, ?_⟩
    · show ratOfCapture ['3','7'] [] = (37 : ℚ)
      norm_num [ratOfCapture, show natOfDigits ['3','7'] = 37 from by decide,
        show natOfDigits [] = 0 from by decide]
    · show ratOfCapture ['3','7'] [] ≠ ((4 : Int) : ℚ) / ((4 : Int) : ℚ) * 100
      norm_num [ratOfCapture, show natOfDigits ['3','7'] = 37 from by decide,
        show natOfDigits [] = 0 from by decide]


/-! ## Claims C6 and C10 -/

/-- C6 divergence witness: a non-positive packet size is replaced by 32
on the non-Windows path as well, although the documented non-Windows
default — the one `DefaultPingOptions` itself returns — is 56; counts
and timeouts do get their documented defaults and the call proceeds. -/
theorem ping_size_default_divergence :
    (validatePingOptions { count := 0, timeout := 0, size := 0 }) =
      { count := 4, timeout := 4 * 1000000000, size := 32 } ∧
    (DefaultPingOptions false).size = 56 ∧
    (Ping "h".toList (some { count := 4, timeout := 4 * 1000000000, size := 0 })
        false ⟨[], some "e".toList⟩).2 =
      some { count := 4, timeout := 4 * 1000000000, size := 32 } := by
  exact ⟨rfl, rfl, rfl⟩

/-- C10 counterexample: with an empty host, `Ping` returns before the
validation block, leaving the caller's all-zero options struct exactly
as it was — no field is overwritten. -/
theorem Ping_empty_host_no_mutation :
    (Ping [] (some { count := 0, timeout := 0, size := 0 }) false ⟨[], none⟩).2 =
      some { count := 0, timeout := 0, size := 0 } := rfl

/-- C10 amended: for a call with a non-empty host and a non-nil options
argument, the caller's struct afterwards has every non-positive field
overwritten with its literal default (count 4, timeout 4s, size 32) and
every positive field untouched; with an empty host the struct is
returned untouched. -/
theorem Ping_mutates_options (host : Str) (o : PingOptions) (w : Bool)
    (env : PingEnv) (hh : host ≠ []) :
    (Ping host (some o) w env).2 =
      some { count := if o.count ≤ 0 then 4 else o.count,
             timeout := if o.timeout ≤ 0 then 4 * 1000000000 else o.timeout,
             size := if o.size ≤ 0 then 32 else o.size } ∧
    (Ping [] (some o) w env).2 = some o := by
  constructor
  · unfold Ping
    rw [if_neg hh]
    have hv : validatePingOptions o =
        { count := if o.count ≤ 0 then 4 else o.count,
          timeout := if o.timeout ≤ 0 then 4 * 1000000000 else o.timeout,
          size := if o.size ≤ 0 then 32 else o.size } := by
      unfold validatePingOptions
      dsimp only
      split_ifs <;> simp_all
    cases env.procErr <;> dsimp only
    · simp [hv]
    · split <;> dsimp only <;> simp [hv]
  · rfl

/-- C10 amended witness: a mixed options struct is partially rewritten
through the caller's pointer. -/
theorem Ping_mutates_options_witness :
    (Ping "h".toList (some { count := 0, timeout := 5, size := -1 }) false
        ⟨[], none⟩).2 = some { count := 4, timeout := 5, size := 32 } := by
  have h := (Ping_mutates_options "h".toList { count := 0, timeout := 5, size := -1 }
    false ⟨[], none⟩ (by decide)).1
  simpa using h


/-! ## Claims C7 and C8 -/

theorem goFields_ne_nil {s t : Str} (ht : t ∈ goFields s) : t ≠ [] := by
  unfold goFields at ht
  have := List.mem_filter.mp ht
  simpa using this.2

theorem getD_mem {l : List Str} {n : Nat} (h : n < l.length) : l.getD n [] ∈ l := by
  rw [List.getD_eq_getElem?_getD, List.getElem?_eq_getElem h]
  exact List.getElem_mem h

/-- C7: whenever every step before the sanitization check succeeds and
the interface name taken from the route output contains a shell
metacharacter, the Linux discovery fails with the security error and the
DHCP-lease grep is never issued. -/
theorem getLinux_sanitization (env : LinuxEnv) (out : Str) (interf : Iface)
    (ifout : Str)
    (hip : ¬env.ipCmd = [])
    (hroute : env.route = .ok out)
    (hlen : ¬(goFields out).length < 7)
    (hiface : env.ifaceByName ((goFields out).getD 4 []) = .ok interf)
    (hifconfig : env.ifconfig = .ok ifout)
    (hmeta : goContainsAny ((goFields out).getD 4 []) shellMetaChars = true) :
    getLinux env = (.error "invalid interface name".toList, [.route, .ifconfig]) ∧
    LinuxCmd.grepLeases ∉ (getLinux env).2 := by
  have hmain : getLinux env =
      (.error "invalid interface name".toList, [.route, .ifconfig]) := by
    unfold getLinux
    rw [if_neg hip, hroute]
    dsimp only
    rw [if_neg hlen]
    try dsimp only
    rw [hiface]
    dsimp only
    rw [hifconfig]
    dsimp only
    rw [if_pos hmeta]
  exact ⟨hmain, by rw [hmain]; decide⟩

/-- Environment whose route output names the interface `eth0;x`,
with every step before the sanitization check succeeding. -/
def metaLinuxEnv : LinuxEnv :=
  { ipCmd := "/sbin/ip".toList,
    route := .ok "8.8.8.8 via 192.168.1.1 dev eth0;x src 192.168.1.5".toList,
    ifaceByName := fun _ => .ok { name := "eth0;x".toList, hardwareAddr := "aa:bb:cc:dd:ee:ff".toList },
    ifconfigCmd := "/sbin/ifconfig".toList,
    ifconfig := .ok "eth0;x: flags=4163\n        inet 192.168.1.5 netmask 255.255.255.0".toList,
    grepLeases := .ok [],
    arp := .ok [],
    parseIP := fun s => some s,
    parseMAC := fun _ => none }

/-- C7 witness: a semicolon in the interface name aborts the discovery
with the security error before the lease lookup. -/
theorem getLinux_sanitization_witness :
    getLinux metaLinuxEnv =
      (.error "invalid interface name".toList, [.route, .ifconfig]) ∧
    LinuxCmd.grepLeases ∉ (getLinux metaLinuxEnv).2 :=
  getLinux_sanitization metaLinuxEnv
    "8.8.8.8 via 192.168.1.1 dev eth0;x src 192.168.1.5".toList
    { name := "eth0;x".toList, hardwareAddr := "aa:bb:cc:dd:ee:ff".toList }
    "eth0;x: flags=4163\n        inet 192.168.1.5 netmask 255.255.255.0".toList
    (by decide) rfl (by decide) rfl rfl (by decide)

/-- Environment of a fully successful Linux discovery over a tunnel
interface that has no hardware address. -/
def emptyMacLinuxEnv : LinuxEnv :=
  { ipCmd := "/sbin/ip".toList,
    route := .ok "8.8.8.8 via 10.0.0.1 dev tun0 src 10.0.0.2".toList,
    ifaceByName := fun _ => .ok { name := "tun0".toList, hardwareAddr := [] },
    ifconfigCmd := "/sbin/ifconfig".toList,
    ifconfig := .ok "tun0: flags=4305\n        inet 10.0.0.2 netmask 255.255.255.0".toList,
    grepLeases := .ok "option domain-name-servers 8.8.8.8;".toList,
    arp := .ok "Address HWtype HWaddress\n10.0.0.1 ether aa:bb:cc:dd:ee:ff C tun0".toList,
    parseIP := fun s => some s,
    parseMAC := fun s => some s }

/-- C8 counterexample: the discovery can succeed — and `GetConfig` can
publish the snapshot — with an empty hardware address, since no step
checks it. -/
theorem getConfig_empty_hardwareAddress :
    ∃ n s', GetConfig (getLinux emptyMacLinuxEnv).1 ⟨none, 0⟩ = (.ok (0, n), s') ∧
      n.hardwareAddress = [] ∧ n.interfaceName = "tun0".toList := by
  refine ⟨_, _, rfl, rfl, by decide⟩

/-- C8 amended: a snapshot built by the Linux path always has a
non-empty interface name (a whitespace-split field is never empty), and
a cold-cache `GetConfig` over that path returns only such snapshots; the
hardware address, by contrast, is whatever the OS reported and may be
empty. -/
theorem getLinux_interfaceName_nonempty (env : LinuxEnv) (n : Network)
    (h : (getLinux env).1 = .ok n) :
    n.interfaceName ≠ [] ∧
    (∀ p s', GetConfig (getLinux env).1 ⟨none, 0⟩ = (.ok p, s') →
      p.2.interfaceName ≠ []) := by
  have hmain : n.interfaceName ≠ [] := by
    unfold getLinux at h
    by_cases h1 : env.ipCmd = []
    · rw [if_pos h1] at h; simp at h
    · rw [if_neg h1] at h
      cases hroute : env.route with
      | error e => rw [hroute] at h; simp at h
      | ok out =>
        rw [hroute] at h; dsimp only at h
        by_cases h2 : (goFields out).length < 7
        · rw [if_pos h2] at h; simp at h
        · rw [if_neg h2] at h
          try dsimp only at h
          have hne : (goFields out).getD 4 [] ≠ [] :=
            goFields_ne_nil (getD_mem (by omega))
          cases hif : env.ifaceByName ((goFields out).getD 4 []) with
          | error e => rw [hif] at h; simp at h
          | ok interf =>
            rw [hif] at h; dsimp only at h
            cases hic : env.ifconfig with
            | error e => rw [hic] at h; simp at h
            | ok ifout =>
              rw [hic] at h; dsimp only at h
              by_cases h3 : goContainsAny ((goFields out).getD 4 []) shellMetaChars = true
              · rw [if_pos h3] at h; simp at h
              · rw [if_neg h3] at h
                cases hg : env.grepLeases with
                | error e => rw [hg] at h; simp at h
                | ok gout =>
                  rw [hg] at h; dsimp only at h
                  rcases hp : parseLeases gout with ⟨dns, suffix⟩
                  rw [hp] at h; dsimp only at h
                  cases hgw : env.parseIP ((goFields out).getD 2 []) with
                  | none =>
                    rw [hgw] at h; dsimp only at h
                    injection h with h
                    rw [← h]
                    exact hne
                  | some g =>
                    rw [hgw] at h; dsimp only at h
                    cases harp : env.arp with
                    | error e => rw [harp] at h; simp at h
                    | ok aout =>
                      rw [harp] at h; dsimp only at h
                      injection h with h
                      rw [← h]
                      exact hne
  refine ⟨hmain, fun p s' hp => ?_⟩
  rw [h] at hp
  unfold GetConfig at hp
  dsimp only at hp
  injection hp with hp1 hp2
  injection hp1 with hp1
  rw [← hp1]
  exact hmain


/-! ## Extractor refinement and claim C4 -/

theorem extractLoop_found (key : Str) (ls : List Str) (acc : Str) :
    extractLoop key ls acc true = acc ++ contTail ls := by
  induction ls generalizing acc with
  | nil => simp [extractLoop, contTail]
  | cons l rest ih =>
    by_cases hc : isContinuationLine l
    · simp [extractLoop, hc, ih, contTail, List.takeWhile_cons, List.append_assoc]
    · simp [extractLoop, hc, contTail, List.takeWhile_cons]

theorem extractLoop_find (key : Str) (lines : List Str) :
    extractLoop key lines [] false =
      (match lines.dropWhile (fun l => !isLabelLine key l) with
        | [] => ([] : Str)
        | line :: rest => line.drop 39 ++ contTail rest) := by
  induction lines with
  | nil => rfl
  | cons l rest ih =>
    by_cases hl : isLabelLine key l
    · simp [extractLoop, hl, extractLoop_found, List.dropWhile_cons]
    · simp [extractLoop, hl, ih, List.dropWhile_cons]

theorem extractDotted_eq_extractSpec (lines : List Str) (key : Str) :
    extractDotted lines key = extractSpec lines key := by
  unfold extractDotted extractSpec
  rw [extractLoop_find]
  cases lines.dropWhile (fun l => !isLabelLine key l) with
  | nil => rfl
  | cons l rest => rfl


/-- C4 counterexample: the claim fails on its own example — the value
column of the example's labelled line begins at offset 43, so the first
returned element is `". : 8.8.8.8"`, not `"8.8.8.8"` — and a line whose
trimmed form starts with the label but is preceded by four spaces
instead of three is not matched at all, although it is longer than 39
columns. -/
theorem extractDotted_counterexample :
    extractDotted ["   Key . . . . . . . . . . . . . . . . . : 8.8.8.8".toList,
        "                                        8.8.4.4".toList] "Key".toList =
      [". : 8.8.8.8".toList, "8.8.4.4".toList] ∧
    (goHasPre "Key".toList
        (goTrimSpace "    Key                                X".toList) = true ∧
      "    Key                                X".toList.length > 39 ∧
      extractDotted ["    Key                                X".toList] "Key".toList =
        [[]]) := by
  refine ⟨by decide, by decide, by decide, by decide⟩

/-- C4 amended: `extractDotted` matches the first line that starts with
exactly three spaces followed immediately by the label and is longer
than 39 columns, takes as first value the raw (untrimmed) content from
offset 39, appends as continuation values the trimmed tails of the
immediately following lines that are longer than 39 columns with their
first 39 columns blank, stops at the first other line, and returns the
single-element sentinel `[""]` when no line matches; on the claim's
example the result is `[". : 8.8.8.8", "8.8.4.4"]`. -/
theorem extractDotted_contract :
    (∀ lines key, extractDotted lines key = extractSpec lines key) ∧
    (∀ lines key, (∀ l ∈ lines, ¬isLabelLine key l) → extractDotted lines key = [[]]) ∧
    extractDotted ["   Key . . . . . . . . . . . . . . . . . : 8.8.8.8".toList,
        "                                        8.8.4.4".toList] "Key".toList =
      [". : 8.8.8.8".toList, "8.8.4.4".toList] := by
  refine ⟨extractDotted_eq_extractSpec, fun lines key hall => ?_, by decide⟩
  rw [extractDotted_eq_extractSpec]
  unfold extractSpec
  rw [List.dropWhile_eq_nil_iff.mpr (by simpa using hall)]

/-- C4 amended witness: a label present nowhere yields the sentinel. -/
theorem extractDotted_contract_witness :
    extractDotted ["   DNS Servers . . . . . . . . . . . : 8.8.8.8".toList]
      "Missing".toList = [[]] :=
  extractDotted_contract.2.1 _ _ (by decide)


/-! ## DNS dedup refinement and claim C9 -/

theorem dedupFirst_sub {a : Str} : ∀ {l : List Str}, a ∈ dedupFirst l → a ∈ l := by
  intro l
  induction l using dedupFirst.induct with
  | case1 => intro h; simp [dedupFirst] at h
  | case2 x xs ih =>
    intro h
    rw [dedupFirst] at h
    rcases List.mem_cons.mp h with h | h
    · simp [h]
    · exact List.mem_cons_of_mem _ (List.mem_of_mem_filter (ih h))

theorem dedupFirst_nodup : ∀ (l : List Str), (dedupFirst l).Nodup := by
  intro l
  induction l using dedupFirst.induct with
  | case1 => simp [dedupFirst]
  | case2 x xs ih =>
    rw [dedupFirst]
    refine List.nodup_cons.mpr ⟨fun hmem => ?_, ih⟩
    have := List.of_mem_filter (dedupFirst_sub hmem)
    simp at this

theorem dedupLoop_eq (rest : List Str) : ∀ (seen acc : List Str),
    dedupLoop rest seen acc = acc ++ dedupFirst (rest.filter (fun y => !seen.contains y)) := by
  induction rest with
  | nil => intro seen acc; simp [dedupLoop, dedupFirst]
  | cons ip rest ih =>
    intro seen acc
    by_cases hs : seen.contains ip = true
    · rw [dedupLoop, if_pos hs, ih, List.filter_cons]
      have hmem : ip ∈ seen := by simpa using hs
      simp [hmem]
    · rw [dedupLoop, if_neg hs, ih, List.filter_cons]
      have hfil : rest.filter (fun y => !(ip :: seen).contains y) =
          (rest.filter (fun y => !seen.contains y)).filter (fun y => y ≠ ip) := by
        rw [List.filter_filter]
        refine List.filter_congr (fun a _ => ?_)
        by_cases ha : a = ip <;> simp [ha, List.contains_cons]
      rw [hfil]
      have hcond : (!seen.contains ip) = true := by simpa using hs
      rw [if_pos hcond, dedupFirst]
      simp

/-- C9: `NSLookup` and `Resolve` reject the empty domain with the input
error independently of the resolver; for non-empty domains both depend
only on the scheme- and slash-stripped form, so inputs equal after
stripping give identical results under the same resolver; and the list
`NSLookup` returns is exactly the first-occurrence deduplication of the
resolver's answers, hence duplicate-free and in first-occurrence
order. -/
theorem dns_lookup_contract (env : ResolverEnv) (d d' : Str) :
    (∀ env' : ResolverEnv,
      NSLookup env' [] = .error "domain cannot be empty".toList ∧
      Resolve env' [] = .error "domain cannot be empty".toList) ∧
    (d ≠ [] → d' ≠ [] → normalizeDomain d = normalizeDomain d' →
      NSLookup env d = NSLookup env d' ∧ Resolve env d = Resolve env d') ∧
    (∀ ips, d ≠ [] → env.lookupHost (normalizeDomain d) = .ok ips →
      NSLookup env d = .ok (dedupFirst ips) ∧ (dedupFirst ips).Nodup) := by
  refine ⟨fun env' => ⟨rfl, rfl⟩, fun hd hd' heq => ?_, fun ips hd hok => ?_⟩
  · constructor
    · unfold NSLookup
      rw [if_neg hd, if_neg hd', heq]
    · unfold Resolve
      rw [if_neg hd, if_neg hd', heq]
  · constructor
    · unfold NSLookup
      rw [if_neg hd]
      dsimp only
      rw [hok]
      dsimp only
      rw [dedupLoop_eq]
      simp
    · exact dedupFirst_nodup ips

/-- Resolver answering a fixed A-record list with one duplicate. -/
def sampleResolverEnv : ResolverEnv :=
  { lookupHost := fun _ => .ok ["1.2.3.4".toList, "5.6.7.8".toList, "1.2.3.4".toList],
    lookupCNAME := fun _ => .error "no cname".toList,
    lookupMX := fun _ => .error "no mx".toList,
    lookupNS := fun _ => .ok ["ns1.example.com.".toList],
    lookupTXT := fun _ => .error "no txt".toList,
    lookupAddr := fun _ => .error "no ptr".toList,
    parseIP := fun _ => none }

/-- C9 witness: `https://example.com/` and `example.com` give identical
results, and the returned list is the duplicate-free first-occurrence
list of the resolver's answers. -/
theorem dns_lookup_contract_witness :
    NSLookup sampleResolverEnv "https://example.com/".toList =
      NSLookup sampleResolverEnv "example.com".toList ∧
    Resolve sampleResolverEnv "https://example.com/".toList =
      Resolve sampleResolverEnv "example.com".toList ∧
    NSLookup sampleResolverEnv "https://example.com/".toList =
      .ok (dedupFirst ["1.2.3.4".toList, "5.6.7.8".toList, "1.2.3.4".toList]) ∧
    (dedupFirst ["1.2.3.4".toList, "5.6.7.8".toList, "1.2.3.4".toList]).Nodup := by
  obtain ⟨-, hstrip, hok⟩ := dns_lookup_contract sampleResolverEnv
    "https://example.com/".toList "example.com".toList
  obtain ⟨h1, h2⟩ := hstrip (by decide) (by decide) (by decide)
  obtain ⟨h3, h4⟩ := hok ["1.2.3.4".toList, "5.6.7.8".toList, "1.2.3.4".toList]
    (by decide) rfl
  exact ⟨h1, h2, h3, h4⟩


/-- C8 amended witness: the tunnel-interface discovery run returns a
snapshot whose interface name is non-empty. -/
theorem getLinux_interfaceName_nonempty_witness :
    ∃ n, (getLinux emptyMacLinuxEnv).1 = .ok n ∧ n.interfaceName ≠ [] := by
  refine ⟨_, rfl, ?_⟩
  exact (getLinux_interfaceName_nonempty emptyMacLinuxEnv _ rfl).1

end NetworkGo
